import Mathlib

/-!
Shallow embedding of the `apperror` package of
FurmanovVitaliy/go-structured-errors (the canonical draft: the second
`AppError` definition in `error.go`, `grpc.go`, and the `ToJSON` variant of
`gateway.go` that reads the correlation id from `ctx.Value(TraceIDKey{})`).

Modelling conventions:
* Go's `error` interface values are `GoError`; a nil interface at an API
  boundary is `Option GoError` with `none` for nil.  A Go panic is modelled
  by an `Option` result being `none`.
* `map[string]string` is an association list; Go map assignment is
  `fieldsInsert` (remove the old binding, add the new one); map iteration
  order, which Go leaves unspecified, is the list order of the model.
* Mutation through a pointer receiver is made explicit by state-passing
  variants (`...St`) that return the post-state of the receiver next to the
  ordinary result; statements of the source that assign through the
  receiver pointer (only `ToJSON` has one: `appErr.traceID = traceID`)
  update that post-state.
* `codes.Code` values are naturals: `OK = 0`, `Unknown = 2`, `Internal = 13`.
-/

namespace StructuredErrors

/-- Go type `ErrorFields = map[string]string`, as an association list. -/
abbrev ErrorFields := List (String × String)

/-- Go map read `m[k]`: the value of the first binding of `k`, if any. -/
def fieldsLookup : ErrorFields → String → Option String
  | [], _ => none
  | (k, v) :: rest, key => if key = k then some v else fieldsLookup rest key

/-- Go map assignment `m[k] = v`: drop any old binding of `k`, add the new one. -/
def fieldsInsert (m : ErrorFields) (k v : String) : ErrorFields :=
  (m.filter fun p => p.1 != k) ++ [(k, v)]

/-- Go loop `for k, v := range src { dst[k] = v }`. -/
def insertAll : ErrorFields → ErrorFields → ErrorFields
  | dst, [] => dst
  | dst, (k, v) :: rest => insertAll (fieldsInsert dst k v) rest

/-- Wellformedness of the list model of a Go map: keys are distinct. -/
def nodupKeys (m : ErrorFields) : Prop := (m.map Prod.fst).Nodup

instance (m : ErrorFields) : Decidable (nodupKeys m) := by
  unfold nodupKeys; infer_instance

/-- First-of-two choice on optional values (argument wins on conflict). -/
def orF : Option String → Option String → Option String
  | some v, _ => some v
  | none, b => b

/-- Go `error` interface values reachable in this development: either a
pointer to an `AppError` (its fields inlined) or a foreign error whose
`Error()` method returns the stored string. -/
inductive GoError : Type where
  | app (Service Code Message : String) (Fields : ErrorFields)
      (cause : Option GoError) (grpcCode : Nat) (traceID : String) : GoError
  | simple (msg : String) : GoError

/-- The `AppError` struct of `error.go`: exported `Service`, `Code`,
`Message`, `Fields` and unexported `cause`, `grpcCode`, `traceID`. -/
structure AppError : Type where
  Service : String
  Code : String
  Message : String
  Fields : ErrorFields
  cause : Option GoError
  grpcCode : Nat
  traceID : String

/-- Packing an `*AppError` into the `error` interface. -/
def AppError.toGo (e : AppError) : GoError :=
  GoError.app e.Service e.Code e.Message e.Fields e.cause e.grpcCode e.traceID

/-- The Go type assertion `err.(*AppError)`. -/
def GoError.asApp : GoError → Option AppError
  | GoError.app s c m f cs g t => some ⟨s, c, m, f, cs, g, t⟩
  | GoError.simple _ => none

/-- Escaping a string for a Go double-quoted form: quote and backslash are
escaped (`fmt %q` and `encoding/json` agree on these; other characters of
the inputs in this development need no escaping). -/
def goEscape (s : String) : String :=
  String.join (s.toList.map fun c =>
    if c = '\\' then "\\\\" else if c = '"' then "\\\"" else String.singleton c)

/-- Rendering of a fields map inside `Error()`: `%q:%q` pairs joined by
a comma and a space, in iteration order. -/
def renderFields (f : ErrorFields) : String :=
  String.intercalate ", "
    (f.map fun p => "\"" ++ goEscape p.1 ++ "\":\"" ++ goEscape p.2 ++ "\"")

/-- Method `Error()` of `error.go` on interface values: an `AppError`
renders as `[service:code] message`, then ` [fields:\x7b...\x7d]` when the
fields map is non-empty, then `: ` and the cause's rendering when a cause
is present; a foreign error returns its stored string. -/
def GoError.error : GoError → String
  | GoError.app s c m f cause _ _ =>
    let base := "[" ++ s ++ ":" ++ c ++ "] " ++ m
    let base2 :=
      if f.isEmpty then base
      else base ++ " [fields:\x7b" ++ renderFields f ++ "\x7d]"
    match cause with
    | some ce => base2 ++ ": " ++ GoError.error ce
    | none => base2
  | GoError.simple m => m

/-- The method `Error()` seen from an `AppError` receiver. -/
def AppError.Error (e : AppError) : String := e.toGo.error

/-- Function `New` of `error.go`: a root error, remaining fields at their
Go zero values. -/
def New (service code message : String) : AppError :=
  ⟨service, code, message, [], none, 0, ""⟩

/-- Function `Wrap` of `error.go`: nil cause propagates to a nil result;
otherwise a copy of the template with its cause set. -/
def Wrap : Option GoError → AppError → Option AppError
  | none, _ => none
  | some err, appErr => some { appErr with cause := some err }

/-- Method `AddFields` of `error.go`: unchanged receiver on an empty
argument; otherwise a copy whose fields map is freshly built from the
receiver's entries and then the argument's entries. -/
def AppError.AddFields (e : AppError) (fields : ErrorFields) : AppError :=
  if fields.isEmpty then e
  else { e with Fields := insertAll (insertAll [] e.Fields) fields }

/-- Method `WithField` of `error.go`, defined through `AddFields`. -/
def AppError.WithField (e : AppError) (key value : String) : AppError :=
  e.AddFields [(key, value)]

/-- Method `WithFields` of `error.go`: wholesale replacement of the map. -/
def AppError.WithFields (e : AppError) (fields : ErrorFields) : AppError :=
  { e with Fields := fields }

/-- Method `Unwrap` of `error.go`. -/
def AppError.Unwrap (e : AppError) : Option GoError := e.cause

/-- Method `Is` of `error.go`: the target must assert to `*AppError`,
match on `Service` and `Code`, and every field of the target must be
present with an equal value on the receiver. -/
def AppError.Is (e : AppError) (target : GoError) : Bool :=
  match target.asApp with
  | none => false
  | some t =>
    (e.Service == t.Service) && (e.Code == t.Code) &&
      (t.Fields.all fun p => fieldsLookup e.Fields p.1 == some p.2)

/-- State-passing `AddFields`: the source copies the receiver
(`copyErr := *e`) and writes only to the copy, so the post-state of the
receiver is the receiver itself. -/
def AddFieldsSt (e : AppError) (fields : ErrorFields) : AppError × AppError :=
  (e, e.AddFields fields)

/-- State-passing `WithFields`: no statement assigns through the receiver. -/
def WithFieldsSt (e : AppError) (fields : ErrorFields) : AppError × AppError :=
  (e, e.WithFields fields)

/-- State-passing `WithGRPCCode`: no statement assigns through the receiver. -/
def WithGRPCCodeSt (e : AppError) (code : Nat) : AppError × AppError :=
  (e, { e with grpcCode := code })

/-- State-passing `Wrap`: the template is copied (`copyErr := *appErr`) and
only the copy's cause is assigned, so the template's post-state is itself. -/
def WrapSt (err : Option GoError) (appErr : AppError) :
    AppError × Option AppError :=
  (appErr, Wrap err appErr)

/-- Method `WithGRPCCode` of `grpc.go`. -/
def AppError.WithGRPCCode (e : AppError) (code : Nat) : AppError :=
  { e with grpcCode := code }

/-- The transport taxonomy's success code `codes.OK`. -/
def codesOK : Nat := 0

/-- The transport taxonomy's generic failure code `codes.Unknown`. -/
def codesUnknown : Nat := 2

/-- The transport taxonomy's internal failure code `codes.Internal`. -/
def codesInternal : Nat := 13

/-- A detail entry attached to a transport status: either the structured
`pb.ErrorDetail` record or some foreign payload. -/
inductive StatusDetail : Type where
  | errorDetail (service code message : String) (fields : ErrorFields)
  | other (payload : String)

/-- Whether a detail entry is the structured `pb.ErrorDetail` record. -/
def StatusDetail.isErrorDetail : StatusDetail → Prop
  | StatusDetail.errorDetail _ _ _ _ => True
  | StatusDetail.other _ => False

instance (d : StatusDetail) : Decidable d.isErrorDetail := by
  cases d <;> unfold StatusDetail.isErrorDetail <;> infer_instance

/-- The gRPC `*status.Status`: a taxonomy code, a message and a list of
attached details. -/
structure GrpcStatus : Type where
  code : Nat
  message : String
  details : List StatusDetail

/-- Library call `status.New(code, message)`: a status with no details. -/
def statusNew (code : Nat) (message : String) : GrpcStatus :=
  ⟨code, message, []⟩

/-- Library call `st.WithDetails(d)`: appends the detail.  Marshaling of a
string record cannot fail in the logical model, so the result is always
present; the `Option` keeps the fallible shape of the Go API. -/
def withDetails (st : GrpcStatus) (d : StatusDetail) : Option GrpcStatus :=
  some { st with details := st.details ++ [d] }

/-- Method `GRPCStatus` of `grpc.go` (Encode): substitute `codes.Unknown`
for a zero (`codes.OK` / unset) code, build a status carrying the message,
and attach one `pb.ErrorDetail` with the service, code, message and fields;
on a (model-impossible) attachment failure degrade to a generic
`codes.Internal` status. -/
def AppError.GRPCStatus (e : AppError) : GrpcStatus :=
  let code := if e.grpcCode = codesOK then codesUnknown else e.grpcCode
  let st := statusNew code e.Message
  match withDetails st
      (StatusDetail.errorDetail e.Service e.Code e.Message e.Fields) with
  | some st2 => st2
  | none => statusNew codesInternal "failed to marshal error"

/-- The scan of `st.Details()` in `FromGRPCStatus`: the first structured
`pb.ErrorDetail` record, if any. -/
def findDetail : List StatusDetail → Option (String × String × String × ErrorFields)
  | [] => none
  | StatusDetail.errorDetail s c m f :: _ => some (s, c, m, f)
  | StatusDetail.other _ :: rest => findDetail rest

/-- Function `FromGRPCStatus` of `grpc.go` (Decode): nil in, nil out; a
structured detail is reconstructed with the status's own code as transport
code; otherwise the minimal fallback value. -/
def FromGRPCStatus : Option GrpcStatus → Option AppError
  | none => none
  | some st =>
    match findDetail st.details with
    | some (s, c, m, f) => some ⟨s, c, m, f, none, st.code, ""⟩
    | none => some ⟨"unknown", "00000", st.message, [], none, st.code, ""⟩

/-- A JSON value occurring in the log object: a string or a string map. -/
inductive JValue : Type where
  | jstr (s : String)
  | jmap (kvs : ErrorFields)

/-- Insertion into a key-sorted list, used to model `encoding/json`
emitting map keys in sorted order. -/
def insertSorted (p : String × String) :
    List (String × String) → List (String × String)
  | [] => [p]
  | q :: rest =>
    if p.1 ≤ q.1 then p :: q :: rest else q :: insertSorted p rest

/-- Sort a fields map by key, as `encoding/json` does when marshaling. -/
def sortFields (l : ErrorFields) : ErrorFields :=
  l.foldr insertSorted []

/-- Byte rendering of one JSON value. -/
def renderJValue : JValue → String
  | JValue.jstr s => "\"" ++ goEscape s ++ "\""
  | JValue.jmap kvs =>
    "\x7b" ++
      String.intercalate ","
        ((sortFields kvs).map fun p =>
          "\"" ++ goEscape p.1 ++ "\":\"" ++ goEscape p.2 ++ "\"") ++
      "\x7d"

/-- Byte rendering of the log object. -/
def renderLogObj (entries : List (String × JValue)) : String :=
  "\x7b" ++
    String.intercalate ","
      (entries.map fun p => "\"" ++ goEscape p.1 ++ "\":" ++ renderJValue p.2) ++
    "\x7d"

/-- The key set of a JSON object. -/
def objKeys (entries : List (String × JValue)) : List String :=
  entries.map Prod.fst

/-- The key/value entries `json.Marshal` produces for the alias struct in
`ToJSON`: embedded `alias` fields first in struct order — `service` and
`code` (both omitempty), `message` (always present), `fields` (omitempty) —
then `trace_id` (omitempty) holding the given correlation id. -/
def logEntries (e : AppError) (traceID : String) : List (String × JValue) :=
  (if e.Service = "" then [] else [("service", JValue.jstr e.Service)]) ++
  (if e.Code = "" then [] else [("code", JValue.jstr e.Code)]) ++
  [("message", JValue.jstr e.Message)] ++
  (if e.Fields.isEmpty then [] else [("fields", JValue.jmap e.Fields)]) ++
  (if traceID = "" then [] else [("trace_id", JValue.jstr traceID)])

/-- The statement `appErr.traceID = traceID` of `ToJSON`, executed exactly
when the ambient context carries a correlation id. -/
def applyCtx : Option String → AppError → AppError
  | none, e => e
  | some t, e => { e with traceID := t }

/-- The JSON object `ToJSON` marshals for an `AppError` input under the
given ambient context (after the context's correlation id, when present,
has been written into the value). -/
def toJSONObj (ctx : Option String) (e : AppError) : List (String × JValue) :=
  logEntries (applyCtx ctx e) (applyCtx ctx e).traceID

/-- Function `ToJSON` of `gateway.go`, state-passing: the ambient context
is the optional correlation id under `TraceIDKey`, the error argument is
the possibly-nil interface, and the result pairs the emitted bytes with the
post-state of the error value; `none` models a panic.  A nil interface
fails the `err.(*AppError)` assertion and then panics calling
`err.Error()`.  A foreign error is emitted by raw string concatenation as
`\x7b"error":"<err.Error()>"\x7d`.  An `AppError` first has the context's
correlation id written into its `traceID` field, then is marshaled. -/
def ToJSONSt (ctx : Option String) (err : Option GoError) :
    Option (String × GoError) :=
  match err with
  | none => none
  | some ge =>
    match ge.asApp with
    | none => some ("\x7b\"error\":\"" ++ ge.error ++ "\"\x7d", ge)
    | some e =>
      let e2 := applyCtx ctx e
      some (renderLogObj (logEntries e2 e2.traceID), e2.toGo)

/-- Observation of the traceID stored in a post-state interface value. -/
def traceOfGo : GoError → Option String
  | GoError.app _ _ _ _ _ _ t => some t
  | GoError.simple _ => none

/-! Helper lemmas about the fields-map model. -/

theorem orF_none (a : Option String) : orF a none = a := by
  cases a <;> rfl

theorem fieldsLookup_append (l1 l2 : ErrorFields) (key : String) :
    fieldsLookup (l1 ++ l2) key = orF (fieldsLookup l1 key) (fieldsLookup l2 key) := by
  induction l1 with
  | nil => rfl
  | cons p rest ih =>
    obtain ⟨k, v⟩ := p
    by_cases h : key = k <;> simp [fieldsLookup, h, ih, orF]

theorem fieldsLookup_filter_self (m : ErrorFields) (k : String) :
    fieldsLookup (m.filter fun p => p.1 != k) k = none := by
  induction m with
  | nil => rfl
  | cons p rest ih =>
    obtain ⟨k0, v0⟩ := p
    by_cases h : k0 = k
    · subst h
      simp [List.filter_cons, ih]
    · have hne : k ≠ k0 := fun hh => h hh.symm
      simp [List.filter_cons, h, fieldsLookup, hne, ih]

theorem fieldsLookup_filter_ne (m : ErrorFields) (k key : String) (h : key ≠ k) :
    fieldsLookup (m.filter fun p => p.1 != k) key = fieldsLookup m key := by
  induction m with
  | nil => rfl
  | cons p rest ih =>
    obtain ⟨k0, v0⟩ := p
    by_cases h0 : k0 = k
    · subst h0
      simp [List.filter_cons, fieldsLookup, h, ih]
    · simp [List.filter_cons, h0, fieldsLookup, ih]

theorem fieldsLookup_fieldsInsert (m : ErrorFields) (k v key : String) :
    fieldsLookup (fieldsInsert m k v) key =
      if key = k then some v else fieldsLookup m key := by
  unfold fieldsInsert
  rw [fieldsLookup_append]
  by_cases h : key = k
  · subst h
    rw [fieldsLookup_filter_self]
    simp [fieldsLookup, orF]
  · rw [fieldsLookup_filter_ne _ _ _ h]
    simp [fieldsLookup, h, orF_none]

theorem fieldsLookup_eq_none_of_not_mem (m : ErrorFields) (key : String)
    (h : key ∉ m.map Prod.fst) : fieldsLookup m key = none := by
  induction m with
  | nil => rfl
  | cons p rest ih =>
    obtain ⟨k0, v0⟩ := p
    simp only [List.map_cons, List.mem_cons, not_or] at h
    simp [fieldsLookup, h.1, ih h.2]

theorem nodupKeys_cons (k v : String) (rest : ErrorFields)
    (h : nodupKeys ((k, v) :: rest)) :
    k ∉ rest.map Prod.fst ∧ nodupKeys rest := by
  unfold nodupKeys at h ⊢
  simpa [List.nodup_cons] using h

theorem fieldsLookup_insertAll (src : ErrorFields) :
    ∀ (dst : ErrorFields) (key : String), nodupKeys src →
      fieldsLookup (insertAll dst src) key =
        orF (fieldsLookup src key) (fieldsLookup dst key) := by
  induction src with
  | nil =>
    intro dst key _
    simp [insertAll, fieldsLookup, orF]
  | cons p rest ih =>
    intro dst key hnd
    obtain ⟨k, v⟩ := p
    obtain ⟨hkn, hnd2⟩ := nodupKeys_cons k v rest hnd
    rw [insertAll, ih _ key hnd2, fieldsLookup_fieldsInsert]
    by_cases h : key = k
    · subst h
      rw [fieldsLookup_eq_none_of_not_mem rest key hkn]
      simp [fieldsLookup, orF]
    · simp [fieldsLookup, h, orF]

theorem fieldsLookup_of_mem (m : ErrorFields) (k v : String)
    (hnd : nodupKeys m) (hm : (k, v) ∈ m) : fieldsLookup m k = some v := by
  induction m with
  | nil => cases hm
  | cons p rest ih =>
    obtain ⟨k0, v0⟩ := p
    obtain ⟨hkn, hnd2⟩ := nodupKeys_cons k0 v0 rest hnd
    rcases List.mem_cons.mp hm with heq | hmem
    · cases heq
      simp [fieldsLookup]
    · have hne : k ≠ k0 := by
        intro hh
        subst hh
        exact hkn (List.mem_map_of_mem Prod.fst hmem)
      simp [fieldsLookup, hne, ih hnd2 hmem]

theorem findDetail_eq_none (ds : List StatusDetail)
    (h : ∀ d ∈ ds, ¬ d.isErrorDetail) : findDetail ds = none := by
  induction ds with
  | nil => rfl
  | cons d rest ih =>
    cases d with
    | errorDetail s c m f =>
      exact absurd trivial (h _ (List.mem_cons_self _ _))
    | other payload =>
      exact ih fun d hd => h d (List.mem_cons_of_mem _ hd)

theorem applyCtx_Service (ctx : Option String) (e : AppError) :
    (applyCtx ctx e).Service = e.Service := by cases ctx <;> rfl

theorem applyCtx_Code (ctx : Option String) (e : AppError) :
    (applyCtx ctx e).Code = e.Code := by cases ctx <;> rfl

theorem applyCtx_Message (ctx : Option String) (e : AppError) :
    (applyCtx ctx e).Message = e.Message := by cases ctx <;> rfl

theorem applyCtx_Fields (ctx : Option String) (e : AppError) :
    (applyCtx ctx e).Fields = e.Fields := by cases ctx <;> rfl

theorem applyCtx_cause (ctx : Option String) (e : AppError) :
    (applyCtx ctx e).cause = e.cause := by cases ctx <;> rfl

theorem applyCtx_grpcCode (ctx : Option String) (e : AppError) :
    (applyCtx ctx e).grpcCode = e.grpcCode := by cases ctx <;> rfl

/-! Claim theorems. -/

/-- C1: decoding the encoding of any `AppError` (spec: `Decode(Encode(e))`,
code: `FromGRPCStatus(e.GRPCStatus())`) yields a value whose service, code,
message and fields equal the original's exactly, and whose transport code
equals the original's unless that was the unset sentinel `0` (`codes.OK`),
in which case the decoded value carries `codes.Unknown`.  Encoding is total
in the model (attaching a string-record detail cannot fail), so the
claim's "whose encoding succeeds" guard is always satisfied. -/
theorem C1_encode_decode_round_trip (e : AppError) :
    ∃ e2 : AppError, FromGRPCStatus (some e.GRPCStatus) = some e2 ∧
      e2.Service = e.Service ∧ e2.Code = e.Code ∧ e2.Message = e.Message ∧
      e2.Fields = e.Fields ∧
      e2.grpcCode = (if e.grpcCode = codesOK then codesUnknown else e.grpcCode) :=
  ⟨⟨e.Service, e.Code, e.Message, e.Fields, none,
      (if e.grpcCode = codesOK then codesUnknown else e.grpcCode), ""⟩,
    rfl, rfl, rfl, rfl, rfl, rfl⟩

/-- C4: decode is total — an absent status decodes to the absent value, and
any present status carrying no structured `pb.ErrorDetail` record decodes
to the minimal fallback `AppError` with service `"unknown"`, code
`"00000"`, the status's message, and the status's code as transport code. -/
theorem C4_decode_total_fallback :
    FromGRPCStatus none = none ∧
    ∀ st : GrpcStatus, (∀ d ∈ st.details, ¬ d.isErrorDetail) →
      FromGRPCStatus (some st) =
        some ⟨"unknown", "00000", st.message, [], none, st.code, ""⟩ := by
  refine ⟨rfl, fun st h => ?_⟩
  show (match findDetail st.details with
    | some (s, c, m, f) => some (⟨s, c, m, f, none, st.code, ""⟩ : AppError)
    | none => some ⟨"unknown", "00000", st.message, [], none, st.code, ""⟩) =
      some ⟨"unknown", "00000", st.message, [], none, st.code, ""⟩
  rw [findDetail_eq_none st.details h]

/-- Witness for C4 at a concrete foreign status with no details. -/
theorem C4_decode_total_fallback_witness :
    FromGRPCStatus (some (statusNew 5 "boom")) =
      some ⟨"unknown", "00000", "boom", [], none, 5, ""⟩ :=
  C4_decode_total_fallback.2 (statusNew 5 "boom")
    (by intro d hd; simp [statusNew] at hd)

/-- C5: `Wrap` on an absent cause returns the absent value for every
template, and on a present cause returns a copy of the template whose
cause is that error, the template itself being left unchanged (its
post-state in the state-passing translation is itself). -/
theorem C5_wrap_absent_propagation :
    (∀ t : AppError, Wrap none t = none) ∧
    (∀ (err : GoError) (t : AppError),
      Wrap (some err) t = some { t with cause := some err } ∧
      (WrapSt (some err) t).1 = t) :=
  ⟨fun _ => rfl, fun _ _ => ⟨rfl, rfl⟩⟩

/-- C6: `Error()` renders `[service:code] message` for a value with no
fields and no cause; appends a bracketed fields block when fields are
non-empty; appends `: ` and the cause's rendering when a cause is present;
and on the concrete single-field scenario value produces exactly the
spec's string. -/
theorem C6_render_format :
    (∀ s c m : String, (New s c m).Error = "[" ++ s ++ ":" ++ c ++ "] " ++ m) ∧
    (((New "user-service" "US-404" "user not found").WithField "id" "456").Error =
      "[user-service:US-404] user not found [fields:\x7b\"id\":\"456\"\x7d]") ∧
    (∀ (s c m k v : String) (fs : ErrorFields) (g : Nat) (t : String),
      (AppError.mk s c m ((k, v) :: fs) none g t).Error =
        "[" ++ s ++ ":" ++ c ++ "] " ++ m ++
          " [fields:\x7b" ++ renderFields ((k, v) :: fs) ++ "\x7d]") ∧
    (∀ (e : AppError) (ce : GoError),
      ({ e with cause := some ce } : AppError).Error =
        ({ e with cause := none } : AppError).Error ++ ": " ++ ce.error) :=
  ⟨fun _ _ _ => rfl, rfl, fun _ _ _ _ _ _ _ _ => rfl, fun _ _ => rfl⟩

/-- C10: the causal chain does not survive the wire — any value produced
by `FromGRPCStatus` has an absent cause (`Unwrap` returns the absent
value), in particular the decoding of any encoded value. -/
theorem C10_cause_absent_after_decode :
    (∀ (st : GrpcStatus) (e2 : AppError),
      FromGRPCStatus (some st) = some e2 → e2.Unwrap = none) ∧
    (∀ e : AppError,
      (FromGRPCStatus (some e.GRPCStatus)).map AppError.Unwrap = some none) := by
  constructor
  · intro st e2 h
    have h2 : (match findDetail st.details with
        | some (s, c, m, f) => some (⟨s, c, m, f, none, st.code, ""⟩ : AppError)
        | none => some ⟨"unknown", "00000", st.message, [], none, st.code, ""⟩) =
          some e2 := h
    cases hfd : findDetail st.details with
    | none =>
      rw [hfd] at h2
      cases h2
      rfl
    | some q =>
      obtain ⟨s, c, m, f⟩ := q
      rw [hfd] at h2
      cases h2
      rfl
  · intro e
    rfl

/-- Witness for C10 at a concrete status, the decode equation discharged
by evaluation. -/
theorem C10_cause_absent_after_decode_witness :
    (AppError.mk "unknown" "00000" "x" [] none 7 "").Unwrap = none :=
  C10_cause_absent_after_decode.1 (statusNew 7 "x")
    (AppError.mk "unknown" "00000" "x" [] none 7 "") rfl

/-- C2 counterexample: `ToJSON` does persist the resolved correlation id
into the value — on a freshly constructed value whose `traceID` is empty,
serializing under a context carrying `"abc"` leaves the value's post-state
with `traceID = "abc"`, contradicting the claim that the correlation id is
never persisted and that no operation mutates a value in place. -/
theorem C2_counterexample_toJSON_persists_trace :
    ((ToJSONSt (some "abc") (some (New "svc" "C1" "msg").toGo)).map
        fun p => traceOfGo p.2) = some (some "abc") ∧
    (New "svc" "C1" "msg").traceID = "" :=
  ⟨rfl, rfl⟩

/-- C2 (amended): construction, every Builder enrichment, Encode and
Decode leave the receiver unchanged (the state-passing translations return
the receiver as its own post-state), and the serializer leaves the
service, code, message, fields, cause and transport code of an
ErrorCore-shaped input unchanged — but it writes the context's resolved
correlation id into the value's `traceID` field, persisting it in place,
whenever the ambient context carries one. -/
theorem C2_amended_mutation_frame :
    (∀ (e : AppError) (f : ErrorFields), (AddFieldsSt e f).1 = e) ∧
    (∀ (e : AppError) (f : ErrorFields), (WithFieldsSt e f).1 = e) ∧
    (∀ (e : AppError) (c : Nat), (WithGRPCCodeSt e c).1 = e) ∧
    (∀ (err : Option GoError) (t : AppError), (WrapSt err t).1 = t) ∧
    (∀ (ctx : Option String) (e : AppError),
      (ToJSONSt ctx (some e.toGo)).map (fun p => p.2) =
        some (applyCtx ctx e).toGo ∧
      (applyCtx ctx e).Service = e.Service ∧
      (applyCtx ctx e).Code = e.Code ∧
      (applyCtx ctx e).Message = e.Message ∧
      (applyCtx ctx e).Fields = e.Fields ∧
      (applyCtx ctx e).cause = e.cause ∧
      (applyCtx ctx e).grpcCode = e.grpcCode ∧
      (applyCtx ctx e).traceID = ctx.getD e.traceID) := by
  refine ⟨fun _ _ => rfl, fun _ _ => rfl, fun _ _ => rfl, fun _ _ => rfl,
    fun ctx e => ⟨rfl, applyCtx_Service ctx e, applyCtx_Code ctx e,
      applyCtx_Message ctx e, applyCtx_Fields ctx e, applyCtx_cause ctx e,
      applyCtx_grpcCode ctx e, ?_⟩⟩
  cases ctx <;> rfl

/-- C3 counterexample: with the concrete template of the spec's scenario
and its enrichment by one extra field, `template.Is(enriched)` is `false`,
because `Is` requires every field of the *argument* to be present on the
*receiver* and the template lacks the extra field — the claim has the
direction of the subset test backwards. -/
theorem C3_counterexample_template_Is_enriched :
    (New "user-service" "US-404" "user not found").Is
      (((New "user-service" "US-404" "user not found").WithField "id" "456").toGo)
      = false :=
  rfl

/-- C3 (amended): enrichment never breaks matching in the direction the
code implements — `enriched.Is(template)` is `true` whenever the template
does not already bind the enriched key to a different value — and `Is` is
exactly the subset test: `e.Is(t)` holds iff service and code agree and
every field of the argument `t` is present with an equal value on the
receiver `e`.  (Fields maps are Go maps, so their keys are distinct.) -/
theorem C3_amended_subset_matching :
    (∀ (template : AppError) (k v : String),
      nodupKeys template.Fields →
      (fieldsLookup template.Fields k = none ∨
        fieldsLookup template.Fields k = some v) →
      (template.WithField k v).Is template.toGo = true) ∧
    (∀ e t : AppError,
      e.Is t.toGo = true ↔
        (e.Service = t.Service ∧ e.Code = t.Code ∧
          ∀ p ∈ t.Fields, fieldsLookup e.Fields p.1 = some p.2)) := by
  have hchar : ∀ e t : AppError,
      e.Is t.toGo = true ↔
        (e.Service = t.Service ∧ e.Code = t.Code ∧
          ∀ p ∈ t.Fields, fieldsLookup e.Fields p.1 = some p.2) := by
    intro e t
    show ((e.Service == t.Service) && (e.Code == t.Code) &&
        (t.Fields.all fun p => fieldsLookup e.Fields p.1 == some p.2)) = true ↔ _
    simp [List.all_eq_true, and_assoc]
  refine ⟨fun template k v hnd hkv => ?_, hchar⟩
  rw [hchar]
  refine ⟨rfl, rfl, ?_⟩
  intro p hp
  obtain ⟨k0, v0⟩ := p
  have hfields : (template.WithField k v).Fields =
      insertAll (insertAll [] template.Fields) [(k, v)] := rfl
  rw [hfields,
    fieldsLookup_insertAll [(k, v)] (insertAll [] template.Fields) k0
      (by simp [nodupKeys]),
    fieldsLookup_insertAll template.Fields [] k0 hnd]
  have hv0 : fieldsLookup template.Fields k0 = some v0 :=
    fieldsLookup_of_mem _ _ _ hnd hp
  by_cases hk : k0 = k
  · subst hk
    rcases hkv with hnone | hsome
    · rw [hv0] at hnone
      cases hnone
    · rw [hv0] at hsome
      injection hsome with hv
      subst hv
      simp [fieldsLookup, orF]
  · simp [fieldsLookup, hk, orF, hv0]

/-- Witness for the amended C3 at the spec's concrete scenario values. -/
theorem C3_amended_subset_matching_witness :
    ((New "user-service" "US-404" "user not found").WithField "id" "456").Is
      (New "user-service" "US-404" "user not found").toGo = true :=
  C3_amended_subset_matching.1 (New "user-service" "US-404" "user not found")
    "id" "456" (by decide) (Or.inl rfl)

/-- C8 counterexample: the serializer applied to an absent (nil) error
aborts — the `err.(*AppError)` assertion fails and the fallback branch
calls `err.Error()` on the nil interface, a panic (`none` in the model) —
contradicting the claim that it degrades to the minimal object for any
input including an absent error. -/
theorem C8_counterexample_serializer_absent_input :
    ToJSONSt none none = none ∧ ToJSONSt (some "abc") none = none :=
  ⟨rfl, rfl⟩

/-- C8 (amended): for every *present* error value the serializer never
aborts, and a present error that is not ErrorCore-shaped degrades to the
minimal object `\x7b"error":"<err.Error()>"\x7d` with the input left
unchanged; only an absent (nil) error makes the serializer abort. -/
theorem C8_amended_no_abort_on_present :
    (∀ (ctx : Option String) (ge : GoError),
      (ToJSONSt ctx (some ge)).isSome = true) ∧
    (∀ (ctx : Option String) (m : String),
      ToJSONSt ctx (some (GoError.simple m)) =
        some ("\x7b\"error\":\"" ++ m ++ "\"\x7d", GoError.simple m)) := by
  refine ⟨fun ctx ge => ?_, fun ctx m => rfl⟩
  cases ge <;> rfl

/-- C9: `AddFields` with a non-empty argument leaves the receiver's own
field map unchanged (the receiver's post-state is the receiver), copies
every other component, and builds a fresh map whose lookup is the key-wise
union with the argument winning on conflict.  (Fields maps are Go maps, so
their keys are distinct.) -/
theorem C9_addFields_union_frame :
    ∀ (e : AppError) (f : ErrorFields), f ≠ [] →
      nodupKeys e.Fields → nodupKeys f →
      (AddFieldsSt e f).1 = e ∧
      (AddFieldsSt e f).2.Service = e.Service ∧
      (AddFieldsSt e f).2.Code = e.Code ∧
      (AddFieldsSt e f).2.Message = e.Message ∧
      (AddFieldsSt e f).2.cause = e.cause ∧
      (AddFieldsSt e f).2.grpcCode = e.grpcCode ∧
      (AddFieldsSt e f).2.Fields = insertAll (insertAll [] e.Fields) f ∧
      (∀ key, fieldsLookup (AddFieldsSt e f).2.Fields key =
        orF (fieldsLookup f key) (fieldsLookup e.Fields key)) := by
  intro e f hne hndE hndF
  have hfe : f.isEmpty = false := by
    cases f with
    | nil => cases hne rfl
    | cons a l => rfl
  have hval : e.AddFields f =
      { e with Fields := insertAll (insertAll [] e.Fields) f } := by
    unfold AppError.AddFields
    simp [hfe]
  have hres : (AddFieldsSt e f).2 = e.AddFields f := rfl
  rw [hres, hval]
  refine ⟨rfl, rfl, rfl, rfl, rfl, rfl, rfl, fun key => ?_⟩
  show fieldsLookup (insertAll (insertAll [] e.Fields) f) key = _
  rw [fieldsLookup_insertAll f _ key hndF,
    fieldsLookup_insertAll e.Fields [] key hndE]
  simp [fieldsLookup, orF_none]

/-- Witness for C9 at concrete values: a one-field receiver and a
two-field argument that overwrites the shared key. -/
theorem C9_addFields_union_frame_witness :
    (AddFieldsSt ((New "s" "c" "m").WithField "a" "1")
        [("a", "2"), ("b", "3")]).1 = (New "s" "c" "m").WithField "a" "1" ∧
    fieldsLookup (AddFieldsSt ((New "s" "c" "m").WithField "a" "1")
        [("a", "2"), ("b", "3")]).2.Fields "a" = some "2" := by
  have h := C9_addFields_union_frame ((New "s" "c" "m").WithField "a" "1")
    [("a", "2"), ("b", "3")] (by decide) (by decide) (by decide)
  exact ⟨h.1, (h.2.2.2.2.2.2.2 "a").trans rfl⟩

/-- C7 counterexample: the claim's "no trace_id key under a context
without a correlation id" fails for a value whose `traceID` field was
already persisted by an earlier serialization (a state `ToJSON` itself can
produce, since it writes the id into the value): serializing it under a
context with no correlation id still emits a `trace_id` key. -/
theorem C7_counterexample_preset_trace_emitted :
    "trace_id" ∈
      objKeys (toJSONObj none (AppError.mk "svc" "C1" "msg" [] none 0 "abc")) := by
  decide

/-- C7 (amended): for every value whose stored `traceID` is empty, a
context with no correlation id yields an object with no `trace_id` key; a
context carrying `"abc"` yields an object containing `trace_id: "abc"` for
every value; `message` is always present; `fields` is present exactly when
the fields map is non-empty; and every key is among `service`, `code`,
`message`, `fields`, `trace_id` (with `service` and `code` also omitted
when empty, as their omitempty tags dictate). -/
theorem C7_amended_log_object_shape :
    (∀ e : AppError, e.traceID = "" →
      "trace_id" ∉ objKeys (toJSONObj none e)) ∧
    (∀ e : AppError, ("trace_id", JValue.jstr "abc") ∈ toJSONObj (some "abc") e) ∧
    (∀ (ctx : Option String) (e : AppError),
      ("message", JValue.jstr e.Message) ∈ toJSONObj ctx e) ∧
    (∀ (ctx : Option String) (e : AppError),
      ("fields" ∈ objKeys (toJSONObj ctx e) ↔ e.Fields ≠ [])) ∧
    (∀ (ctx : Option String) (e : AppError),
      ∀ key ∈ objKeys (toJSONObj ctx e),
        key ∈ ["service", "code", "message", "fields", "trace_id"]) := by
  refine ⟨?_, ?_, ?_, ?_, ?_⟩
  · intro e h
    by_cases hS : e.Service = "" <;> by_cases hC : e.Code = "" <;>
      by_cases hF : e.Fields.isEmpty <;>
      simp [toJSONObj, logEntries, objKeys, applyCtx, h, hS, hC, hF]
  · intro e
    have habc : ("abc" : String) ≠ "" := by decide
    simp [toJSONObj, logEntries, applyCtx, habc]
  · intro ctx e
    simp [toJSONObj, logEntries, applyCtx_Message]
  · intro ctx e
    by_cases hS : (applyCtx ctx e).Service = "" <;>
      by_cases hC : (applyCtx ctx e).Code = "" <;>
      by_cases hT : (applyCtx ctx e).traceID = "" <;>
      cases hFe : e.Fields with
    | _ => simp [toJSONObj, logEntries, objKeys, hS, hC, hT, applyCtx_Fields, hFe]
  · intro ctx e key hk
    by_cases hS : (applyCtx ctx e).Service = "" <;>
      by_cases hC : (applyCtx ctx e).Code = "" <;>
      by_cases hT : (applyCtx ctx e).traceID = "" <;>
      by_cases hF : ((applyCtx ctx e).Fields).isEmpty <;>
      simp [toJSONObj, logEntries, objKeys, hS, hC, hT, hF] at hk ⊢ <;>
      tauto

/-- Witness for the amended C7 at a concrete freshly constructed value,
whose stored `traceID` is empty. -/
theorem C7_amended_log_object_shape_witness :
    "trace_id" ∉ objKeys (toJSONObj none (New "svc" "C1" "msg")) :=
  C7_amended_log_object_shape.1 (New "svc" "C1" "msg") rfl

end StructuredErrors
